import Mathlib

/- The kernel computes with the exact rationals of the embedding, but the
`Rat` arithmetic operations are irreducible by default, which blocks the
`decide` evaluation of concrete instances; restore the default
reducibility for them in this file. -/
set_option allowUnsafeReducibility true
attribute [local semireducible] Rat.add Rat.blt Rat.mul Rat.div Rat.sub Rat.neg Rat.inv

/-!
# Verification of the radar-coverage core (jblestang/AIRC-Antigravity)

Shallow embedding of the coverage compute pipeline of `radar_coverage`:
the HGT terrain loader and bilinear sampler (`src/terrain/mod.rs`), the
Web-Mercator projection helpers (`src/geo/mod.rs`), the per-radar viewshed
builder (`src/physics/viewshed.rs`), the per-tile coverage evaluator
(`src/coverage/mod.rs`), the radar-set configuration hash (`src/io/mod.rs`)
and the radar-equation range gate (`src/physics/radar_eq.rs`).

Floating-point scalars of the source are embedded as exact rationals `ℚ`
(each concrete `f64` value is a rational, and the source's arithmetic on the
values that the claims below inspect is order/equality reasoning, which the
exact rationals decide), except for the Web-Mercator projection, which the
corresponding claim explicitly reads as an identity of exact real arithmetic
and is therefore embedded over `ℝ`.

The elevation angles that the viewshed builder and the coverage evaluator
store and compare are of the form `atan (h / dist)` with `dist = sqrt s`
for a rational `s > 0`, plus the sentinel values `-π/2` (initial / at the
radar) and `+π/2` (target overhead).  Since `atan` is strictly monotone,
every comparison the source performs on such angles is decided by the pair
`(h, s)` alone; the embedding stores that pair (`Angle.atanOf h s`) together
with the two sentinels and decides the source's float comparisons with
`angleLE`.  The lemma `angleLE_iff_angleVal` below proves that this decision
procedure agrees with the real-number ordering of the represented angles.
-/

namespace RadarCov

/-- `geo/mod.rs`: `pub const EARTH_RADIUS: f64 = 6378137.0`. -/
def EARTH_RADIUS : ℚ := 6378137

/-- `geo/mod.rs`: latitude °, longitude °, altitude m AMSL.  Scalars as exact
rationals. -/
structure LatLon where
  latitude : ℚ
  longitude : ℚ
  altitude : ℚ
deriving DecidableEq

/-- `io/mod.rs`: the radar configuration record. -/
structure Radar where
  name : String
  location : LatLon
  antenna_height_agl : ℚ
  tx_power_w : ℚ
  gain_dbi : ℚ
  frequency_mhz : ℚ
  system_loss_db : ℚ
  snr_threshold_db : ℚ
  azimuth_sector : Option (ℚ × ℚ)
  elevation_sector : Option (ℚ × ℚ)
deriving DecidableEq

/-- Exact encoding of the elevation angles occurring in the viewshed and
coverage computations: `negPiHalf` is the float constant `-FRAC_PI_2`,
`atanOf h s` is `atan (h / sqrt s)` (with `0 < s`; `sqrt s` is the ground
distance and `h` the curvature-corrected height difference), and `posPiHalf`
is `FRAC_PI_2` (the overhead case of the coverage evaluator). -/
inductive Angle where
  | negPiHalf : Angle
  | atanOf (h : ℚ) (s : ℚ) : Angle
  | posPiHalf : Angle
deriving DecidableEq

/-- Decides `h1 / sqrt s1 ≤ h2 / sqrt s2` for rationals with `0 < s1`,
`0 < s2`, by sign analysis and cross-multiplied squares. -/
def ratLE (h1 s1 h2 s2 : ℚ) : Bool :=
  if 0 ≤ h2 then
    if h1 ≤ 0 then true else decide (h1 ^ 2 * s2 ≤ h2 ^ 2 * s1)
  else
    if h1 ≤ 0 then decide (h2 ^ 2 * s1 ≤ h1 ^ 2 * s2) else false

/-- Decides the `≤` comparison of two encoded angles (the source compares the
stored `f32`/`f64` angle values; `atan` being strictly monotone, the encoded
data decide the same ordering). -/
def angleLE : Angle → Angle → Bool
  | .negPiHalf, _ => true
  | _, .posPiHalf => true
  | .atanOf h1 s1, .atanOf h2 s2 => ratLE h1 s1 h2 s2
  | _, _ => false

/-- The real number represented by an encoded angle. -/
noncomputable def angleVal : Angle → ℝ
  | .negPiHalf => -(Real.pi / 2)
  | .atanOf h s => Real.arctan ((h : ℝ) / Real.sqrt (s : ℝ))
  | .posPiHalf => Real.pi / 2

/-- Well-formedness: the `atanOf` encoding is used only with a positive
squared distance. -/
def Angle.WF : Angle → Prop
  | .atanOf _ s => 0 < s
  | _ => True

/-! ## Viewshed builder (`physics/viewshed.rs`) -/

/-- `viewshed.rs:156`: the constant `let cell_size = 100.0` of
`compute_viewshed` (100 m resolution). -/
def cell_size : ℚ := 100

/-- `viewshed.rs:164`: the height difference entering the `atan` of the
viewshed ray walk, `h_ground as f64 - radar.location.altitude -
curvature_drop`.  `radar_alt` is `radar.location.altitude`. -/
def viewshedHeightDiff (radar_alt h_ground drop : ℚ) : ℚ :=
  h_ground - radar_alt - drop

/-- Modelled from the spec (§4.3 step 5 / §3): the height difference the
specification prescribes, taken against the radar's effective height above
MSL `h_radar = radar.location.altitude + radar.antenna_height_agl`. -/
def specHeightDiff (radar : Radar) (h_ground drop : ℚ) : ℚ :=
  h_ground - (radar.location.altitude + radar.antenna_height_agl) - drop

/-- `viewshed.rs`: the `Viewshed` struct.  `horizon_map` stores encoded
angles. -/
structure Viewshed where
  origin : LatLon
  radius_m : ℚ
  cell_size_m : ℚ
  width : ℕ
  height : ℕ
  horizon_map : List Angle
deriving DecidableEq

/-- `Viewshed::new`: `size = (radius_m * 2.0 / cell_size_m).ceil() as usize`,
map initialized to `-FRAC_PI_2` everywhere.  (`as usize` saturates negative
values to 0, as `Int.toNat` does.) -/
def Viewshed.new (origin : LatLon) (radius_m cell_size_m : ℚ) : Viewshed :=
  let size := (Int.ceil (radius_m * 2 / cell_size_m)).toNat
  { origin := origin
    radius_m := radius_m
    cell_size_m := cell_size_m
    width := size
    height := size
    horizon_map := List.replicate (size * size) Angle.negPiHalf }

/-- Context of one `cast_ray` closure invocation inside `compute_viewshed`:
the captured radar altitude, terrain, refraction factor, range and grid
geometry.  `alt x y` is the ground altitude the source obtains for grid cell
`(x, y)` by reverse flat-earth projection followed by
`terrain.get_altitude`; any terrain provider induces such a function, and
the claims below quantify over all of them. -/
structure RayCtx where
  alt : ℤ → ℤ → ℚ
  radar_alt : ℚ
  k : ℚ
  max_range : ℚ
  w : ℕ
  h : ℕ
  cx : ℤ
  cy : ℤ

/-- `dist <= max_range_m` on the nonnegative float `dist = sqrt dist_sq`,
decided on the squared distance. -/
def distWithin (dist_sq max_range : ℚ) : Bool :=
  decide (0 ≤ max_range) && decide (dist_sq ≤ max_range ^ 2)

/-- The body of the `cast_ray` loop for the current cell `(x, y)`
(`viewshed.rs:124-180`): bounds check, squared ground distance, range gate,
curvature drop, elevation angle and running-max write.  Returns the updated
map, the updated running maximum, and the value written (if any). -/
def processCell (c : RayCtx) (x y : ℤ) (maxAngle : Angle) (map : List Angle) :
    List Angle × Angle × Option Angle :=
  if 0 ≤ x ∧ x < (c.w : ℤ) ∧ 0 ≤ y ∧ y < (c.h : ℤ) then
    let idx := (y * (c.w : ℤ) + x).toNat
    let dist_x := (x - c.cx : ℚ) * cell_size
    let dist_y := (y - c.cy : ℚ) * cell_size
    let dist_sq := dist_x * dist_x + dist_y * dist_y
    if 0 < dist_sq ∧ distWithin dist_sq c.max_range = true then
      let h_ground := c.alt x y
      let curvature_drop := dist_sq / (2 * c.k * EARTH_RADIUS)
      let height_diff := viewshedHeightDiff c.radar_alt h_ground curvature_drop
      let angle := Angle.atanOf height_diff dist_sq
      -- `if angle > max_angle { max_angle = angle; ... }`: both branches
      -- store the (possibly updated) running maximum at `idx`.
      let newMax := if angleLE angle maxAngle then maxAngle else angle
      (map.set idx newMax, newMax, some newMax)
    else if dist_sq = 0 then
      (map.set idx Angle.negPiHalf, maxAngle, some Angle.negPiHalf)
    else
      (map, maxAngle, none)
  else
    (map, maxAngle, none)

/-- The `cast_ray` loop (`viewshed.rs:109-187`): integer Bresenham walk from
`(c.cx, c.cy)` to `(ex, ey)`, processing each visited cell, breaking after
the end cell.  `fuel` bounds the iteration count (the source loop reaches
the end cell within `dx + dy` steps; the top-level entry supplies enough
fuel).  Returns the final map, the list of values written in order, and
the list of visited cells in order. -/
def castRayAux (c : RayCtx) (ex ey sx sy dx dy : ℤ) :
    ℕ → ℤ → ℤ → ℤ → Angle → List Angle →
    List Angle × List Angle × List (ℤ × ℤ)
  | 0, _, _, _, _, map => (map, [], [])
  | fuel + 1, x, y, err, maxAngle, map =>
    let step := processCell c x y maxAngle map
    let map' := step.1
    let maxAngle' := step.2.1
    let written := step.2.2
    let rest :=
      if x = ex ∧ y = ey then (map', [], [])
      else
        let e2 := 2 * err
        let x' := if e2 > -dy then x + sx else x
        let err1 := if e2 > -dy then err - dy else err
        let y' := if e2 < dx then y + sy else y
        let err2 := if e2 < dx then err1 + dx else err1
        castRayAux c ex ey sx sy dx dy fuel x' y' err2 maxAngle' map'
    (rest.1, (written.toList ++ rest.2.1 : List Angle), (x, y) :: rest.2.2)

/-- `cast_ray` entry: initializes the Bresenham state (`viewshed.rs:110-120`)
with `max_angle = -FRAC_PI_2` and walks from the center. -/
def castRay (c : RayCtx) (ex ey : ℤ) (map : List Angle) :
    List Angle × List Angle × List (ℤ × ℤ) :=
  let dx := |ex - c.cx|
  let dy := |ey - c.cy|
  let sx : ℤ := if c.cx < ex then 1 else -1
  let sy : ℤ := if c.cy < ey then 1 else -1
  castRayAux c ex ey sx sy dx dy (dx + dy + 1).toNat c.cx c.cy (dx - dy)
    Angle.negPiHalf map

/-- The ray context `compute_viewshed` uses: center at
`(width/2, height/2)` (isize division of nonnegative values), 100 m cells. -/
def viewshedCtx (radar : Radar) (alt : ℤ → ℤ → ℚ) (max_range_m k_factor : ℚ)
    (vs : Viewshed) : RayCtx :=
  { alt := alt
    radar_alt := radar.location.altitude
    k := k_factor
    max_range := max_range_m
    w := vs.width
    h := vs.height
    cx := ((vs.width / 2 : ℕ) : ℤ)
    cy := ((vs.height / 2 : ℕ) : ℤ) }

/-- `compute_viewshed` (`viewshed.rs:85-216`): build the grid, then cast a
ray to every perimeter cell — top and bottom edges for each `x`, then left
and right edges for each `y` (the atomic progress counter has no effect on
the result and is omitted). -/
def compute_viewshed (radar : Radar) (alt : ℤ → ℤ → ℚ)
    (max_range_m k_factor : ℚ) : Viewshed :=
  let vs := Viewshed.new radar.location max_range_m cell_size
  let c := viewshedCtx radar alt max_range_m k_factor vs
  let maxX : ℤ := (vs.width : ℤ) - 1
  let maxY : ℤ := (vs.height : ℤ) - 1
  let map1 := (List.range vs.width).foldl
    (fun m xi => (castRay c (Int.ofNat xi) maxY
      ((castRay c (Int.ofNat xi) 0 m).1)).1) vs.horizon_map
  let map2 := (List.range vs.height).foldl
    (fun m yi => (castRay c maxX (Int.ofNat yi)
      ((castRay c 0 (Int.ofNat yi) m).1)).1) map1
  { vs with horizon_map := map2 }

/-- Boolean check that a list of encoded angles is non-decreasing under
`angleLE` (adjacent pairs). -/
def angleChain : List Angle → Bool
  | [] => true
  | [_] => true
  | a :: b :: rest => angleLE a b && angleChain (b :: rest)

/-- The sequence of horizon values a single `cast_ray` invocation of
`compute_viewshed` writes into the map, in traversal order (the written
values do not depend on the incoming map contents). -/
def viewshed_ray_write_trace (radar : Radar) (alt : ℤ → ℤ → ℚ)
    (max_range_m k_factor : ℚ) (ex ey : ℤ) : List Angle :=
  let vs := Viewshed.new radar.location max_range_m cell_size
  let c := viewshedCtx radar alt max_range_m k_factor vs
  (castRay c ex ey vs.horizon_map).2.1

/-- The cells of the Bresenham ray of `compute_viewshed` from the center
cell to `(ex, ey)`, in traversal order. -/
def viewshed_ray_cells (radar : Radar) (alt : ℤ → ℤ → ℚ)
    (max_range_m k_factor : ℚ) (ex ey : ℤ) : List (ℤ × ℤ) :=
  let vs := Viewshed.new radar.location max_range_m cell_size
  let c := viewshedCtx radar alt max_range_m k_factor vs
  (castRay c ex ey vs.horizon_map).2.2

/-- The final `horizon_map` values of a computed viewshed at the cells of
the Bresenham ray to `(ex, ey)`, read in traversal order from the center
outward. -/
def viewshed_ray_final_values (radar : Radar) (alt : ℤ → ℤ → ℚ)
    (max_range_m k_factor : ℚ) (ex ey : ℤ) : List Angle :=
  let vs := compute_viewshed radar alt max_range_m k_factor
  (viewshed_ray_cells radar alt max_range_m k_factor ex ey).map
    (fun p => vs.horizon_map.getD (p.2 * (vs.width : ℤ) + p.1).toNat Angle.negPiHalf)

/-! ## Coverage evaluator (`coverage/mod.rs`) -/

/-- `terrain/mod.rs`: `pub const SRTM3_SIZE: usize = 1201`. -/
def SRTM3_SIZE : ℕ := 1201

/-- `terrain/mod.rs`: `pub const SRTM1_SIZE: usize = 3601`. -/
def SRTM1_SIZE : ℕ := 3601

/-- `coverage/mod.rs:50-51`: `let k = 4.0/3.0; let two_k_r = 2.0 * k *
EARTH_RADIUS` — the refraction factor is fixed to 4/3 at the coverage
layer. -/
def two_k_r : ℚ := 2 * (4 / 3) * EARTH_RADIUS

/-- `coverage/mod.rs:82`: the height difference entering the `atan` of the
coverage evaluator, `target_alt - radar.location.altitude -
curvature_drop`.  `radar_alt` is `radar.location.altitude`. -/
def coverageHeightDiff (radar_alt target_alt drop : ℚ) : ℚ :=
  target_alt - radar_alt - drop

/-- `coverage/mod.rs:55-64`: the geographic location sampled for output
pixel `(x, y)` of the tile `(lat_idx, lon_idx)` with downsampling factor
`step_size`. -/
def pixel_loc (lat_idx lon_idx : ℤ) (step_size : ℕ) (x y : ℕ) : LatLon :=
  let orig_y := min (y * step_size) (SRTM3_SIZE - 1)
  let orig_x := min (x * step_size) (SRTM3_SIZE - 1)
  { latitude := (lat_idx : ℚ) + 1 - (orig_y : ℚ) / ((SRTM3_SIZE : ℚ) - 1)
    longitude := (lon_idx : ℚ) + (orig_x : ℚ) / ((SRTM3_SIZE : ℚ) - 1)
    altitude := 0 }

/-- `coverage/mod.rs:75-89`: the elevation angle from the radar to the
target above pixel `loc`: ground altitude plus target AGL, curvature drop,
`atan(height_diff / dist)`, or `FRAC_PI_2` when `dist ≤ 0.1` (overhead).
`alt` is the terrain oracle (`terrain_manager.get_altitude`) and `geodist`
the great-circle distance oracle (`calculate_geodesic(radar.location, ·).0`,
always nonnegative). -/
def pixel_target_angle (radar : Radar) (alt : LatLon → ℚ) (geodist : LatLon → ℚ)
    (target_agl : ℚ) (loc : LatLon) : Angle :=
  let dist := geodist loc
  let ground_alt := alt loc
  let target_alt := ground_alt + target_agl
  let curvature_drop := dist * dist / two_k_r
  let height_diff := coverageHeightDiff radar.location.altitude target_alt curvature_drop
  if 1 / 10 < dist then Angle.atanOf height_diff (dist * dist) else Angle.posPiHalf

/-- The per-pixel body of `compute_coverage_tile` (`coverage/mod.rs:66-100`):
range gate against `max_range`, horizon lookup (`horizon` is the oracle for
`viewshed.get_horizon_angle`; `none` = outside the viewshed grid), then the
comparison `target_angle >= horizon_angle`.  Returns the cell class
(0 out-of-range / 1 visible / 2 shadowed) and the margin entry: `none`
encodes the untouched initial `0.0` of the `snr_margin` raster, and
`some (t, h)` encodes the written value `(t - h).to_degrees()`. -/
def coverage_pixel (radar : Radar) (alt : LatLon → ℚ) (horizon : LatLon → Option Angle)
    (geodist : LatLon → ℚ) (max_range target_agl : ℚ) (loc : LatLon) :
    ℕ × Option (Angle × Angle) :=
  let dist := geodist loc
  if max_range < dist then (0, none)
  else
    match horizon loc with
    | some horizon_angle =>
      let target_angle := pixel_target_angle radar alt geodist target_agl loc
      if angleLE horizon_angle target_angle then (1, some (target_angle, horizon_angle))
      else (2, none)
    | none => (0, none)

/-- `coverage/mod.rs`: the `CoverageTile` struct.  `data` is the class
raster, `snr_margin` the margin raster in the encoding of
`coverage_pixel`. -/
structure CoverageTile where
  lat_idx : ℤ
  lon_idx : ℤ
  size : ℕ
  data : List ℕ
  snr_margin : List (Option (Angle × Angle))

/-- `compute_coverage_tile` (`coverage/mod.rs:25-111`).  `max_range` stands
for the value `max_detection_range(&radar, target_rcs)` the source computes
(a fixed real number per radar/RCS pair; the claims below hold for every
value, so the transcendental radar-equation formula is abstracted by this
parameter).  Each loop iteration writes exactly the pixel `(x, y)` with
index `y * size + x`, so the raster is the image of the independent
per-pixel function. -/
def compute_coverage_tile (radar : Radar) (alt : LatLon → ℚ)
    (horizon : LatLon → Option Angle) (geodist : LatLon → ℚ)
    (max_range : ℚ) (lat_idx lon_idx : ℤ) (target_agl : ℚ)
    (step_size : ℕ) : CoverageTile :=
  let size := (SRTM3_SIZE + step_size - 1) / step_size
  let pix := fun (i : ℕ) =>
    coverage_pixel radar alt horizon geodist max_range target_agl
      (pixel_loc lat_idx lon_idx step_size (i % size) (i / size))
  { lat_idx := lat_idx
    lon_idx := lon_idx
    size := size
    data := (List.range (size * size)).map (fun i => (pix i).1)
    snr_margin := (List.range (size * size)).map (fun i => (pix i).2) }

/-- The real margin value (in degrees) encoded by a `snr_margin` entry:
untouched entries hold the initial `0.0`, written entries hold
`(target_angle - horizon_angle).to_degrees()`. -/
noncomputable def marginVal : Option (Angle × Angle) → ℝ
  | none => 0
  | some (t, h) => (angleVal t - angleVal h) * (180 / Real.pi)

/-! ## Terrain store (`terrain/mod.rs`) -/

/-- `terrain/mod.rs`: the `TerrainTile` struct (`data` row-major, parsed
i16 samples as integers). -/
structure TerrainTile where
  latitude : ℤ
  longitude : ℤ
  size : ℕ
  data : List ℤ
deriving DecidableEq

/-- `TerrainTile::get_height`: `self.data[y * self.size + x]`.  The source
indexes the vector directly (a panic when out of bounds); the embedding
reads with a default and the in-bounds theorem below shows the accesses of
`sample` stay inside the array. -/
def TerrainTile.get_height (t : TerrainTile) (x y : ℕ) : ℤ :=
  t.data.getD (y * t.size + x) 0

/-- The four corner coordinates `(x0, x1, y0, y1)` computed by
`TerrainTile::sample` (`terrain/mod.rs:34-43`): `x = u * (size-1)`,
`x0 = x.floor() as usize` (saturating at 0 like the float-to-usize cast),
`x1 = min(x0+1, size-1)`, and likewise for `y`. -/
def sampleGrid (t : TerrainTile) (u v : ℚ) : ℕ × ℕ × ℕ × ℕ :=
  let max_idx : ℚ := ((t.size - 1 : ℕ) : ℚ)
  let x := u * max_idx
  let y := v * max_idx
  let x0 := (Int.floor x).toNat
  let y0 := (Int.floor y).toNat
  let x1 := min (x0 + 1) (t.size - 1)
  let y1 := min (y0 + 1) (t.size - 1)
  (x0, x1, y0, y1)

/-- `TerrainTile::sample` (`terrain/mod.rs:34-57`): bilinear interpolation
of the four corner heights. -/
def TerrainTile.sample (t : TerrainTile) (u v : ℚ) : ℚ :=
  let max_idx : ℚ := ((t.size - 1 : ℕ) : ℚ)
  let x := u * max_idx
  let y := v * max_idx
  let g := sampleGrid t u v
  let x0 := g.1
  let x1 := g.2.1
  let y0 := g.2.2.1
  let y1 := g.2.2.2
  let tx := x - (x0 : ℚ)
  let ty := y - (y0 : ℚ)
  let h00 := ((t.get_height x0 y0 : ℤ) : ℚ)
  let h10 := ((t.get_height x1 y0 : ℤ) : ℚ)
  let h01 := ((t.get_height x0 y1 : ℤ) : ℚ)
  let h11 := ((t.get_height x1 y1 : ℤ) : ℚ)
  let h0 := h00 * (1 - tx) + h10 * tx
  let h1 := h01 * (1 - tx) + h11 * tx
  h0 * (1 - ty) + h1 * ty

/-- The four flat array indices `y * size + x` that `TerrainTile::sample`
accesses through `get_height`. -/
def sampleIndices (t : TerrainTile) (u v : ℚ) : List ℕ :=
  let g := sampleGrid t u v
  [g.2.2.1 * t.size + g.1, g.2.2.1 * t.size + g.2.1,
   g.2.2.2 * t.size + g.1, g.2.2.2 * t.size + g.2.1]

/-- `terrain/mod.rs:119-122`: `chunks_exact(2)` big-endian `i16` parsing of
the file bytes (a trailing odd byte is dropped, as by `chunks_exact`). -/
def parse_be_i16 : List ℕ → List ℤ
  | b0 :: b1 :: rest =>
    (if b0 * 256 + b1 < 32768 then ((b0 * 256 + b1 : ℕ) : ℤ)
     else ((b0 * 256 + b1 : ℕ) : ℤ) - 65536) :: parse_be_i16 rest
  | _ => []

/-- `terrain/mod.rs:100-105`: the flat zero tile substituted for a missing
HGT file. -/
def zero_tile (lat lon : ℤ) : TerrainTile :=
  { latitude := lat, longitude := lon, size := SRTM3_SIZE
    data := List.replicate (SRTM3_SIZE * SRTM3_SIZE) 0 }

/-- `TerrainLoader::load_tile` (`terrain/mod.rs:91-131`).  `file` is the
content of the HGT file named from `(lat, lon)`, or `none` when the file
does not exist.  File length 2884802 → grid 1201, 25934402 → grid 3601,
anything else is an error. -/
def load_tile (file : Option (List ℕ)) (lat lon : ℤ) : Except String TerrainTile :=
  match file with
  | none => .ok (zero_tile lat lon)
  | some bytes =>
    if bytes.length = 2884802 then
      .ok { latitude := lat, longitude := lon, size := SRTM3_SIZE
            data := parse_be_i16 bytes }
    else if bytes.length = 25934402 then
      .ok { latitude := lat, longitude := lon, size := SRTM1_SIZE
            data := parse_be_i16 bytes }
    else .error "Unknown HGT file size"

/-- `TerrainManager::get_altitude` (`terrain/mod.rs:164-184`): floor the
location to tile indices, map into `[0,1]²` with `u = lon - lon_deg`,
`v = (lat_deg + 1) - lat`, sample bilinearly; on a failed tile load return
0.  `files` maps tile indices to the file contents (the LRU `get_tile`
cache is behaviorally transparent). -/
def get_altitude (files : ℤ → ℤ → Option (List ℕ)) (loc : LatLon) : ℚ :=
  let lat_deg := Int.floor loc.latitude
  let lon_deg := Int.floor loc.longitude
  match load_tile (files lat_deg lon_deg) lat_deg lon_deg with
  | .ok tile => tile.sample (loc.longitude - (lon_deg : ℚ)) (((lat_deg : ℚ) + 1) - loc.latitude)
  | .error _ => 0

/-! ## Radar-set configuration hash (`io/mod.rs`) -/

/-- One unit fed to the `DefaultHasher` by `compute_radar_set_hash`: a
string (`name.hash`) or the bit pattern of an `f64`
(`value.to_bits().hash`; distinct finite doubles have distinct bit
patterns, so the exact value represents the bits faithfully). -/
inductive HashToken where
  | str (s : String) : HashToken
  | bits (q : ℚ) : HashToken
deriving DecidableEq

/-- The tokens one radar contributes to the digest
(`io/mod.rs:41-49`): name, latitude bits, longitude bits, frequency bits,
power bits — and nothing else. -/
def radar_hash_tokens (r : Radar) : List HashToken :=
  [.str r.name, .bits r.location.latitude, .bits r.location.longitude,
   .bits r.frequency_mhz, .bits r.tx_power_w]

/-- `compute_radar_set_hash` (`io/mod.rs:39-52`): the full input stream fed
to the hasher over the radar list. -/
def compute_radar_set_hash_input (radars : List Radar) : List HashToken :=
  radars.foldr (fun r acc => radar_hash_tokens r ++ acc) []

/-- `cache/mod.rs:7-15`: the `CoverageKey` struct; the `radar_hash : u64`
digest is modelled by the exact input stream it digests. -/
structure CoverageKey where
  lat : ℤ
  lon : ℤ
  target_agl_m : ℤ
  radar_hash : List HashToken
deriving DecidableEq

/-! ## Web Mercator projection (`geo/mod.rs`), over exact reals -/

/-- `geo/mod.rs`: the lat/lon value type with real scalars, for the
projection identities. -/
structure LatLonR where
  latitude : ℝ
  longitude : ℝ
  altitude : ℝ

/-- `geo/mod.rs`: the Web-Mercator value type. -/
structure WebMercator where
  x : ℝ
  y : ℝ
  altitude : ℝ

/-- `latlon_to_webmercator` (`geo/mod.rs:25-33`). -/
noncomputable def latlon_to_webmercator (coord : LatLonR) : WebMercator :=
  { x := coord.longitude * (Real.pi / 180) * (EARTH_RADIUS : ℝ)
    y := Real.log (Real.tan (coord.latitude * Real.pi / 360 + Real.pi / 4)) * (EARTH_RADIUS : ℝ)
    altitude := coord.altitude }

/-- `webmercator_to_latlon` (`geo/mod.rs:36-44`). -/
noncomputable def webmercator_to_latlon (coord : WebMercator) : LatLonR :=
  { latitude := (2 * Real.arctan (Real.exp (coord.y / (EARTH_RADIUS : ℝ))) - Real.pi / 2) * (180 / Real.pi)
    longitude := (coord.x / (EARTH_RADIUS : ℝ)) * (180 / Real.pi)
    altitude := coord.altitude }

/-! ## Supporting lemmas -/

theorem ratLE_iff {h1 s1 h2 s2 : ℚ} (hs1 : 0 < s1) (hs2 : 0 < s2) :
    ratLE h1 s1 h2 s2 = true ↔
      (h1 : ℝ) / Real.sqrt (s1 : ℝ) ≤ (h2 : ℝ) / Real.sqrt (s2 : ℝ) := by
  have hr1 : (0 : ℝ) < Real.sqrt (s1 : ℝ) := Real.sqrt_pos.mpr (by exact_mod_cast hs1)
  have hr2 : (0 : ℝ) < Real.sqrt (s2 : ℝ) := Real.sqrt_pos.mpr (by exact_mod_cast hs2)
  have hdiv : ((h1 : ℝ) / Real.sqrt (s1 : ℝ) ≤ (h2 : ℝ) / Real.sqrt (s2 : ℝ)) ↔
      (h1 : ℝ) * Real.sqrt (s2 : ℝ) ≤ (h2 : ℝ) * Real.sqrt (s1 : ℝ) :=
    div_le_div_iff₀ hr1 hr2
  have hsq1 : Real.sqrt (s1 : ℝ) * Real.sqrt (s1 : ℝ) = (s1 : ℝ) :=
    Real.mul_self_sqrt (le_of_lt (by exact_mod_cast hs1))
  have hsq2 : Real.sqrt (s2 : ℝ) * Real.sqrt (s2 : ℝ) = (s2 : ℝ) :=
    Real.mul_self_sqrt (le_of_lt (by exact_mod_cast hs2))
  rw [ratLE, hdiv]
  by_cases h2pos : 0 ≤ h2
  · by_cases h1neg : h1 ≤ 0
    · simp only [h2pos, h1neg, if_true]
      constructor
      · intro _
        calc (h1 : ℝ) * Real.sqrt (s2 : ℝ) ≤ 0 :=
              mul_nonpos_of_nonpos_of_nonneg (by exact_mod_cast h1neg) (le_of_lt hr2)
          _ ≤ (h2 : ℝ) * Real.sqrt (s1 : ℝ) :=
              mul_nonneg (by exact_mod_cast h2pos) (le_of_lt hr1)
      · intro _; trivial
    · have h1pos : 0 < h1 := lt_of_not_le h1neg
      simp only [h2pos, h1neg, if_true, if_false, decide_eq_true_eq]
      have ha : (0 : ℝ) ≤ (h1 : ℝ) * Real.sqrt (s2 : ℝ) :=
        mul_nonneg (by exact_mod_cast (le_of_lt h1pos)) (le_of_lt hr2)
      have hb : (0 : ℝ) ≤ (h2 : ℝ) * Real.sqrt (s1 : ℝ) :=
        mul_nonneg (by exact_mod_cast h2pos) (le_of_lt hr1)
      have expand : (h1 : ℝ) * Real.sqrt (s2 : ℝ) * ((h1 : ℝ) * Real.sqrt (s2 : ℝ)) =
          (h1 : ℝ) ^ 2 * (s2 : ℝ) := by
        rw [show (h1 : ℝ) * Real.sqrt (s2 : ℝ) * ((h1 : ℝ) * Real.sqrt (s2 : ℝ)) =
          (h1 : ℝ) ^ 2 * (Real.sqrt (s2 : ℝ) * Real.sqrt (s2 : ℝ)) from by ring, hsq2]
      have expand2 : (h2 : ℝ) * Real.sqrt (s1 : ℝ) * ((h2 : ℝ) * Real.sqrt (s1 : ℝ)) =
          (h2 : ℝ) ^ 2 * (s1 : ℝ) := by
        rw [show (h2 : ℝ) * Real.sqrt (s1 : ℝ) * ((h2 : ℝ) * Real.sqrt (s1 : ℝ)) =
          (h2 : ℝ) ^ 2 * (Real.sqrt (s1 : ℝ) * Real.sqrt (s1 : ℝ)) from by ring, hsq1]
      rw [mul_self_le_mul_self_iff ha hb, expand, expand2]
      constructor
      · intro h; exact_mod_cast h
      · intro h; exact_mod_cast h
  · have h2neg : h2 < 0 := lt_of_not_le h2pos
    by_cases h1neg : h1 ≤ 0
    · simp only [h2pos, h1neg, if_true, if_false, decide_eq_true_eq]
      have key : ((h1 : ℝ) * Real.sqrt (s2 : ℝ) ≤ (h2 : ℝ) * Real.sqrt (s1 : ℝ)) ↔
          (-(h2 : ℝ)) * Real.sqrt (s1 : ℝ) ≤ (-(h1 : ℝ)) * Real.sqrt (s2 : ℝ) := by
        constructor
        · intro h; nlinarith
        · intro h; nlinarith
      have ha : (0 : ℝ) ≤ (-(h2 : ℝ)) * Real.sqrt (s1 : ℝ) := by
        apply mul_nonneg _ (le_of_lt hr1)
        have : (h2 : ℝ) < 0 := by exact_mod_cast h2neg
        linarith
      have hb : (0 : ℝ) ≤ (-(h1 : ℝ)) * Real.sqrt (s2 : ℝ) := by
        apply mul_nonneg _ (le_of_lt hr2)
        have : (h1 : ℝ) ≤ 0 := by exact_mod_cast h1neg
        linarith
      have expand : (-(h2 : ℝ)) * Real.sqrt (s1 : ℝ) * ((-(h2 : ℝ)) * Real.sqrt (s1 : ℝ)) =
          (h2 : ℝ) ^ 2 * (s1 : ℝ) := by
        rw [show (-(h2 : ℝ)) * Real.sqrt (s1 : ℝ) * ((-(h2 : ℝ)) * Real.sqrt (s1 : ℝ)) =
          (h2 : ℝ) ^ 2 * (Real.sqrt (s1 : ℝ) * Real.sqrt (s1 : ℝ)) from by ring, hsq1]
      have expand2 : (-(h1 : ℝ)) * Real.sqrt (s2 : ℝ) * ((-(h1 : ℝ)) * Real.sqrt (s2 : ℝ)) =
          (h1 : ℝ) ^ 2 * (s2 : ℝ) := by
        rw [show (-(h1 : ℝ)) * Real.sqrt (s2 : ℝ) * ((-(h1 : ℝ)) * Real.sqrt (s2 : ℝ)) =
          (h1 : ℝ) ^ 2 * (Real.sqrt (s2 : ℝ) * Real.sqrt (s2 : ℝ)) from by ring, hsq2]
      rw [key, mul_self_le_mul_self_iff ha hb, expand, expand2]
      constructor
      · intro h; exact_mod_cast h
      · intro h; exact_mod_cast h
    · have h1pos : 0 < h1 := lt_of_not_le h1neg
      simp only [h2pos, h1neg, if_false]
      constructor
      · intro h; exact absurd h (by simp)
      · intro h
        exfalso
        have hlt : (h2 : ℝ) * Real.sqrt (s1 : ℝ) < 0 :=
          mul_neg_of_neg_of_pos (by exact_mod_cast h2neg) hr1
        have hge : (0 : ℝ) < (h1 : ℝ) * Real.sqrt (s2 : ℝ) :=
          mul_pos (by exact_mod_cast h1pos) hr2
        linarith

/-- The boolean comparison `angleLE` agrees with the real ordering of the
represented angle values (on well-formed encodings). -/
theorem angleLE_iff_angleVal {a b : Angle} (ha : a.WF) (hb : b.WF) :
    angleLE a b = true ↔ angleVal a ≤ angleVal b := by
  have harctan_lt_pi2 : ∀ x : ℝ, Real.arctan x < Real.pi / 2 := Real.arctan_lt_pi_div_two
  have hneg_pi2_lt : ∀ x : ℝ, -(Real.pi / 2) < Real.arctan x := Real.neg_pi_div_two_lt_arctan
  cases a with
  | negPiHalf =>
    cases b with
    | negPiHalf => simp [angleLE, angleVal]
    | atanOf h s => simp [angleLE, angleVal, le_of_lt (hneg_pi2_lt _)]
    | posPiHalf =>
      simp [angleLE, angleVal]
      linarith [Real.pi_pos]
  | atanOf h1 s1 =>
    cases b with
    | negPiHalf =>
      simp [angleLE, angleVal]
      linarith [hneg_pi2_lt ((h1 : ℝ) / Real.sqrt (s1 : ℝ))]
    | atanOf h2 s2 =>
      simp only [angleLE, angleVal]
      rw [ratLE_iff ha hb]
      exact (Real.arctan_strictMono.le_iff_le).symm
    | posPiHalf => simp [angleLE, angleVal, le_of_lt (harctan_lt_pi2 _)]
  | posPiHalf =>
    cases b with
    | negPiHalf =>
      simp [angleLE, angleVal]
      linarith [Real.pi_pos]
    | atanOf h2 s2 =>
      simp [angleLE, angleVal]
      linarith [harctan_lt_pi2 ((h2 : ℝ) / Real.sqrt (s2 : ℝ))]
    | posPiHalf => simp [angleLE, angleVal]

/-- `angleLE` is reflexive. -/
theorem angleLE_refl (a : Angle) : angleLE a a = true := by
  cases a with
  | negPiHalf => rfl
  | posPiHalf => rfl
  | atanOf h s =>
    simp only [angleLE, ratLE]
    by_cases hpos : 0 ≤ h
    · by_cases hneg : h ≤ 0 <;> simp [hpos, hneg]
    · simp [hpos, not_le.mp hpos |>.le]

/-- `angleLE` is total. -/
theorem angleLE_total (a b : Angle) : angleLE a b = true ∨ angleLE b a = true := by
  cases a with
  | negPiHalf => left; cases b <;> rfl
  | posPiHalf =>
    cases b with
    | negPiHalf => right; rfl
    | atanOf h s => right; rfl
    | posPiHalf => left; rfl
  | atanOf h1 s1 =>
    cases b with
    | negPiHalf => right; rfl
    | posPiHalf => left; rfl
    | atanOf h2 s2 =>
      simp only [angleLE, ratLE]
      by_cases hb : 0 ≤ h2
      · by_cases ha : h1 ≤ 0
        · left; simp [hb, ha]
        · rcases le_total (h1 ^ 2 * s2) (h2 ^ 2 * s1) with h | h
          · left; simp [hb, ha, h]
          · right
            have ha' : 0 ≤ h1 := le_of_lt (lt_of_not_le ha)
            by_cases hb' : h2 ≤ 0
            · simp [ha', hb']
            · simp [ha', hb', h]
      · by_cases ha : h1 ≤ 0
        · by_cases ha' : 0 ≤ h1
          · right
            have : h2 ≤ 0 := le_of_lt (lt_of_not_le hb)
            simp [ha', this]
          · rcases le_total (h2 ^ 2 * s1) (h1 ^ 2 * s2) with h | h
            · left; simp [hb, ha, h]
            · right; simp [ha', le_of_lt (lt_of_not_le hb), h]
        · right
          have ha' : 0 ≤ h1 := le_of_lt (lt_of_not_le ha)
          simp [ha', le_of_lt (lt_of_not_le hb)]

/-! ## Claims -/

/-- C1 (counterexample): for a radar with a nonzero antenna height the
height differences computed by the viewshed builder (`viewshed.rs:164`) and
by the coverage evaluator (`coverage/mod.rs:82`) are NOT taken against
`h_radar = radar.location.altitude + radar.antenna_height_agl`: both differ
from the spec's prescription at this concrete input. -/
theorem c1_counterexample_antenna_height_ignored :
    let r : Radar :=
      { name := "r", location := { latitude := 0, longitude := 0, altitude := 50 },
        antenna_height_agl := 100, tx_power_w := 1, gain_dbi := 0,
        frequency_mhz := 3000, system_loss_db := 0, snr_threshold_db := 13,
        azimuth_sector := none, elevation_sector := none }
    viewshedHeightDiff r.location.altitude 0 0 ≠ specHeightDiff r 0 0 ∧
    coverageHeightDiff r.location.altitude 0 0 ≠ specHeightDiff r 0 0 := by
  decide

/-- C1 (amended): the viewshed builder (step 5 of the ray walk) and the
coverage evaluator (step 4) take the elevation angle against
`radar.location.altitude` alone — the antenna height above ground is not
added.  The height difference fed to the `atan` exceeds the one the spec
prescribes (against `altitude + antenna_height_agl`) by exactly
`antenna_height_agl`. -/
theorem c1_height_diff_offset_by_antenna_height (r : Radar) (h_ground drop : ℚ) :
    viewshedHeightDiff r.location.altitude h_ground drop
        = specHeightDiff r h_ground drop + r.antenna_height_agl ∧
    coverageHeightDiff r.location.altitude h_ground drop
        = specHeightDiff r h_ground drop + r.antenna_height_agl := by
  constructor <;>
    simp only [viewshedHeightDiff, coverageHeightDiff, specHeightDiff] <;> ring

/-- C4 (counterexample): two radar configurations that differ in exactly one
of the fields the claim lists as digested (the gain) while agreeing on all
others feed the IDENTICAL input to the hash function, so the digest cannot
change. -/
theorem c4_counterexample_gain_not_hashed :
    let r1 : Radar :=
      { name := "r", location := { latitude := 45, longitude := 3, altitude := 200 },
        antenna_height_agl := 10, tx_power_w := 1000, gain_dbi := 30,
        frequency_mhz := 3000, system_loss_db := 3, snr_threshold_db := 13,
        azimuth_sector := none, elevation_sector := none }
    let r2 : Radar :=
      { name := "r", location := { latitude := 45, longitude := 3, altitude := 200 },
        antenna_height_agl := 10, tx_power_w := 1000, gain_dbi := 40,
        frequency_mhz := 3000, system_loss_db := 3, snr_threshold_db := 13,
        azimuth_sector := none, elevation_sector := none }
    compute_radar_set_hash_input [r1] = compute_radar_set_hash_input [r2] ∧
    r1.gain_dbi ≠ r2.gain_dbi ∧
    r1.name = r2.name ∧ r1.location = r2.location ∧
    r1.antenna_height_agl = r2.antenna_height_agl ∧
    r1.tx_power_w = r2.tx_power_w ∧ r1.frequency_mhz = r2.frequency_mhz ∧
    r1.system_loss_db = r2.system_loss_db ∧
    r1.snr_threshold_db = r2.snr_threshold_db ∧
    r1.azimuth_sector = r2.azimuth_sector ∧
    r1.elevation_sector = r2.elevation_sector := by
  decide

/-- C4 (amended): the input `compute_radar_set_hash` feeds to the hasher is
a digest of exactly the name, latitude, longitude, frequency and transmit
power of each radar: two single-radar sets feed the same input if and only
if those five fields agree — so a change to one of these five yields a new
digest input, while altitude, antenna height, gain, system loss, SNR
threshold, the sectors and the target parameters are not digested at all
(target AGL enters the `CoverageKey` directly, not the hash). -/
theorem c4_hash_input_iff_digested_fields (r1 r2 : Radar) :
    compute_radar_set_hash_input [r1] = compute_radar_set_hash_input [r2] ↔
      (r1.name = r2.name ∧ r1.location.latitude = r2.location.latitude ∧
       r1.location.longitude = r2.location.longitude ∧
       r1.frequency_mhz = r2.frequency_mhz ∧ r1.tx_power_w = r2.tx_power_w) := by
  simp [compute_radar_set_hash_input, radar_hash_tokens]

/-- C7: `load_tile` returns the flat all-zero 1201-tile when the file is
absent; a byte length of 2884802 yields grid size 1201, 25934402 yields
3601, any other length is an error; and `get_altitude` returns 0 whenever
the underlying tile load fails. -/
theorem c7_load_tile_size_and_fallback :
    (∀ lat lon : ℤ, load_tile none lat lon = .ok (zero_tile lat lon) ∧
      (zero_tile lat lon).size = 1201 ∧
      (zero_tile lat lon).data = List.replicate (1201 * 1201) 0) ∧
    (∀ (bytes : List ℕ) (lat lon : ℤ), bytes.length = 2884802 →
      ∃ t, load_tile (some bytes) lat lon = .ok t ∧ t.size = 1201) ∧
    (∀ (bytes : List ℕ) (lat lon : ℤ), bytes.length = 25934402 →
      ∃ t, load_tile (some bytes) lat lon = .ok t ∧ t.size = 3601) ∧
    (∀ (bytes : List ℕ) (lat lon : ℤ), bytes.length ≠ 2884802 →
      bytes.length ≠ 25934402 →
      load_tile (some bytes) lat lon = .error "Unknown HGT file size") ∧
    (∀ (files : ℤ → ℤ → Option (List ℕ)) (loc : LatLon) (e : String),
      load_tile (files (Int.floor loc.latitude) (Int.floor loc.longitude))
          (Int.floor loc.latitude) (Int.floor loc.longitude) = .error e →
      get_altitude files loc = 0) := by
  refine ⟨fun lat lon => ⟨rfl, rfl, rfl⟩, ?_, ?_, ?_, ?_⟩
  · intro bytes lat lon hlen
    rw [load_tile]
    simp only [hlen, if_true, reduceIte]
    exact ⟨_, rfl, rfl⟩
  · intro bytes lat lon hlen
    rw [load_tile]
    simp only [hlen, if_true, reduceIte]
    exact ⟨_, rfl, rfl⟩
  · intro bytes lat lon h1 h2
    simp [load_tile, h1, h2]
  · intro files loc e herr
    simp [get_altitude, herr]

/-- C7 (witness): concrete instances of each clause. -/
theorem c7_witness :
    (load_tile none 7 3 = .ok (zero_tile 7 3)) ∧
    (∃ t, load_tile (some (List.replicate 2884802 0)) 0 0 = .ok t ∧ t.size = 1201) ∧
    (∃ t, load_tile (some (List.replicate 25934402 0)) 0 0 = .ok t ∧ t.size = 3601) ∧
    (load_tile (some [0]) 0 0 = .error "Unknown HGT file size") ∧
    (get_altitude (fun _ _ => some [0]) { latitude := 0, longitude := 0, altitude := 0 } = 0) :=
  ⟨(c7_load_tile_size_and_fallback.1 7 3).1,
   c7_load_tile_size_and_fallback.2.1 _ 0 0 (List.length_replicate ..),
   c7_load_tile_size_and_fallback.2.2.1 _ 0 0 (List.length_replicate ..),
   c7_load_tile_size_and_fallback.2.2.2.1 [0] 0 0 (by simp) (by simp),
   c7_load_tile_size_and_fallback.2.2.2.2 _ _ "Unknown HGT file size" (by rfl)⟩

/-- C10: for a tile with `size ≥ 1` and a full `size × size` data array and
any `u, v ∈ [0, 1]`, the four bilinear corner accesses of
`TerrainTile::sample` fall inside the data array (so edge sampling,
`u = 1` or `v = 1` included, cannot panic). -/
theorem c10_sample_indices_in_bounds (t : TerrainTile) (u v : ℚ)
    (hsize : 1 ≤ t.size) (hlen : t.data.length = t.size * t.size)
    (hu0 : 0 ≤ u) (hu1 : u ≤ 1) (hv0 : 0 ≤ v) (hv1 : v ≤ 1) :
    (sampleIndices t u v).all (fun i => decide (i < t.data.length)) = true := by
  have coord_le : ∀ w : ℚ, 0 ≤ w → w ≤ 1 →
      (Int.floor (w * ((t.size - 1 : ℕ) : ℚ))).toNat ≤ t.size - 1 := by
    intro w hw0 hw1
    have hle : w * ((t.size - 1 : ℕ) : ℚ) ≤ ((t.size - 1 : ℕ) : ℚ) := by
      nlinarith [Nat.cast_nonneg (α := ℚ) (t.size - 1)]
    have hfl : Int.floor (w * ((t.size - 1 : ℕ) : ℚ)) ≤ ((t.size - 1 : ℕ) : ℤ) := by
      calc Int.floor (w * ((t.size - 1 : ℕ) : ℚ)) ≤ Int.floor ((t.size - 1 : ℕ) : ℚ) :=
            Int.floor_le_floor hle
        _ = ((t.size - 1 : ℕ) : ℤ) := Int.floor_natCast _
    calc (Int.floor (w * ((t.size - 1 : ℕ) : ℚ))).toNat ≤ ((t.size - 1 : ℕ) : ℤ).toNat :=
          Int.toNat_le_toNat hfl
      _ = t.size - 1 := Int.toNat_natCast _
  have idx_lt : ∀ xx yy : ℕ, xx ≤ t.size - 1 → yy ≤ t.size - 1 →
      yy * t.size + xx < t.data.length := by
    intro xx yy hx hy
    rw [hlen]
    have hx' : xx < t.size := lt_of_le_of_lt hx (Nat.sub_lt hsize Nat.one_pos)
    have hy' : yy < t.size := lt_of_le_of_lt hy (Nat.sub_lt hsize Nat.one_pos)
    calc yy * t.size + xx < yy * t.size + t.size := by omega
      _ = (yy + 1) * t.size := by ring
      _ ≤ t.size * t.size := Nat.mul_le_mul_right _ (by omega)
  have hx0 := coord_le u hu0 hu1
  have hy0 := coord_le v hv0 hv1
  have hx1 : min ((Int.floor (u * ((t.size - 1 : ℕ) : ℚ))).toNat + 1) (t.size - 1) ≤ t.size - 1 :=
    min_le_right _ _
  have hy1 : min ((Int.floor (v * ((t.size - 1 : ℕ) : ℚ))).toNat + 1) (t.size - 1) ≤ t.size - 1 :=
    min_le_right _ _
  simp only [sampleIndices, sampleGrid, List.all_cons, List.all_nil, Bool.and_true,
    Bool.and_eq_true, decide_eq_true_eq]
  exact ⟨idx_lt _ _ hx0 hy0, idx_lt _ _ hx1 hy0, idx_lt _ _ hx0 hy1, idx_lt _ _ hx1 hy1⟩

/-- C10 (witness): a concrete 2×2 tile sampled at the far corner
`u = v = 1`. -/
theorem c10_witness :
    (sampleIndices { latitude := 0, longitude := 0, size := 2, data := [0, 0, 0, 0] } 1 1).all
      (fun i => decide (i < (([0, 0, 0, 0] : List ℤ)).length)) = true :=
  c10_sample_indices_in_bounds
    { latitude := 0, longitude := 0, size := 2, data := [0, 0, 0, 0] } 1 1
    (by decide) (by decide) (by decide) (by decide) (by decide) (by decide)

/-- C9: for latitudes strictly between -90° and 90°, the Web-Mercator
projection round-trips exactly over the real numbers:
`webmercator_to_latlon (latlon_to_webmercator c) = c` with latitude,
longitude and altitude all restored. -/
theorem c9_webmercator_roundtrip (c : LatLonR)
    (h1 : -90 < c.latitude) (h2 : c.latitude < 90) :
    webmercator_to_latlon (latlon_to_webmercator c) = c := by
  obtain ⟨lat, lon, altv⟩ := c
  simp only [latlon_to_webmercator, webmercator_to_latlon] at *
  have hR : ((EARTH_RADIUS : ℚ) : ℝ) ≠ 0 := by
    simp only [EARTH_RADIUS]; norm_num
  have hpi : Real.pi ≠ 0 := Real.pi_ne_zero
  have hpi_pos : 0 < Real.pi := Real.pi_pos
  have theta_pos : 0 < lat * Real.pi / 360 + Real.pi / 4 := by nlinarith
  have theta_lt : lat * Real.pi / 360 + Real.pi / 4 < Real.pi / 2 := by nlinarith
  have htan_pos : 0 < Real.tan (lat * Real.pi / 360 + Real.pi / 4) :=
    Real.tan_pos_of_pos_of_lt_pi_div_two theta_pos theta_lt
  congr 1
  · -- latitude
    rw [mul_div_assoc, div_self hR, mul_one, Real.exp_log htan_pos,
      Real.arctan_tan (by linarith) theta_lt]
    field_simp
    ring
  · -- longitude
    field_simp
    ring

/-- C9 (witness): the round-trip at the origin. -/
theorem c9_witness :
    webmercator_to_latlon (latlon_to_webmercator
      { latitude := 0, longitude := 0, altitude := 0 }) =
      { latitude := 0, longitude := 0, altitude := 0 } :=
  c9_webmercator_roundtrip
    { latitude := 0, longitude := 0, altitude := 0 } (by norm_num) (by norm_num)

/-- Reading the raster produced by mapping a function over `List.range`. -/
theorem getD_map_range {α : Type _} (f : ℕ → α) (n i : ℕ) (d : α) (h : i < n) :
    ((List.range n).map f).getD i d = f i := by
  rw [List.getD_eq_getElem?_getD, List.getElem?_map, List.getElem?_range h]
  rfl

/-- Row-major index bound. -/
theorem row_major_index_lt {x y n : ℕ} (hx : x < n) (hy : y < n) :
    y * n + x < n * n := by
  calc y * n + x < y * n + n := by omega
    _ = (y + 1) * n := by ring
    _ ≤ n * n := Nat.mul_le_mul_right _ (by omega)

/-- Row-major index recovery: the pixel loop writes `(x, y)` at
`y * size + x`. -/
theorem row_major_index_rec (x y n : ℕ) (hx : x < n) :
    (y * n + x) % n = x ∧ (y * n + x) / n = y := by
  constructor
  · rw [Nat.add_comm, Nat.add_mul_mod_self_right, Nat.mod_eq_of_lt hx]
  · rw [Nat.add_comm, Nat.add_mul_div_right _ _ (by omega : 0 < n),
      Nat.div_eq_of_lt hx, Nat.zero_add]

/-- An `atanOf` angle with a negative height difference represents a
negative elevation. -/
theorem angleVal_atanOf_neg {h s : ℚ} (hh : h < 0) (hs : 0 < s) :
    angleVal (Angle.atanOf h s) < 0 := by
  simp only [angleVal]
  have hq : ((h : ℝ) / Real.sqrt (s : ℝ)) < 0 :=
    div_neg_of_neg_of_pos (by exact_mod_cast hh)
      (Real.sqrt_pos.mpr (by exact_mod_cast hs))
  calc Real.arctan ((h : ℝ) / Real.sqrt (s : ℝ)) < Real.arctan 0 :=
        Real.arctan_strictMono hq
    _ = 0 := Real.arctan_zero

/-- The target angle computed by the coverage evaluator is a well-formed
encoding. -/
theorem pixel_target_angle_WF (radar : Radar) (alt : LatLon → ℚ)
    (geodist : LatLon → ℚ) (target_agl : ℚ) (loc : LatLon) :
    (pixel_target_angle radar alt geodist target_agl loc).WF := by
  simp only [pixel_target_angle]
  split
  · rename_i hd
    have : (0 : ℚ) < geodist loc := lt_trans (by norm_num) hd
    exact mul_pos this this
  · trivial

/-- A nonnegative margin encoding from a true comparison. -/
theorem marginVal_nonneg_of_angleLE {t h : Angle} (ht : t.WF) (hh : h.WF)
    (hle : angleLE h t = true) : 0 ≤ marginVal (some (t, h)) := by
  simp only [marginVal]
  have hv := (angleLE_iff_angleVal hh ht).mp hle
  have hpi : (0 : ℝ) < 180 / Real.pi := div_pos (by norm_num) Real.pi_pos
  nlinarith

/-- C5: every output pixel of `compute_coverage_tile` whose geodesic
distance to the radar exceeds the maximum detection range (the
`max_detection_range` value, abstracted by `max_range`) is classified 0
(out-of-range), for every terrain oracle and every viewshed oracle. -/
theorem c5_range_gate (radar : Radar) (alt : LatLon → ℚ)
    (horizon : LatLon → Option Angle) (geodist : LatLon → ℚ)
    (max_range target_agl : ℚ) (lat_idx lon_idx : ℤ) (step_size : ℕ)
    (x y : ℕ)
    (hx : x < (SRTM3_SIZE + step_size - 1) / step_size)
    (hy : y < (SRTM3_SIZE + step_size - 1) / step_size)
    (hdist : max_range < geodist (pixel_loc lat_idx lon_idx step_size x y)) :
    (compute_coverage_tile radar alt horizon geodist max_range lat_idx lon_idx
      target_agl step_size).data.getD
      (y * ((SRTM3_SIZE + step_size - 1) / step_size) + x) 0 = 0 := by
  set size := (SRTM3_SIZE + step_size - 1) / step_size with hsize
  simp only [compute_coverage_tile]
  rw [getD_map_range _ _ _ _ (row_major_index_lt hx hy),
    (row_major_index_rec x y _ hx).1, (row_major_index_rec x y _ hx).2]
  simp only [coverage_pixel, if_pos hdist]

/-- C5 (witness): a concrete pixel far beyond the detection range is
classified 0 even though terrain and viewshed would make it visible. -/
theorem c5_witness :
    (compute_coverage_tile
      { name := "r", location := { latitude := 0, longitude := 0, altitude := 0 },
        antenna_height_agl := 0, tx_power_w := 1, gain_dbi := 0,
        frequency_mhz := 3000, system_loss_db := 0, snr_threshold_db := 13,
        azimuth_sector := none, elevation_sector := none }
      (fun _ => 0) (fun _ => some Angle.negPiHalf) (fun _ => 1000000000) 1
      0 0 50 1201).data.getD (0 * ((SRTM3_SIZE + 1201 - 1) / 1201) + 0) 0 = 0 :=
  c5_range_gate _ _ _ _ 1 50 0 0 1201 0 0 (by decide) (by decide) (by decide)

/-- C3 (counterexample): a concrete shadowed pixel (class 2) whose margin
raster entry is the untouched initial value 0 — not strictly negative as
the claim requires.  The terrain is flat, the stored horizon is `atan 1`
and the target angle is negative, so the pixel is shadowed. -/
theorem c3_counterexample_shadowed_margin_zero :
    let r : Radar :=
      { name := "r", location := { latitude := 0, longitude := 0, altitude := 50 },
        antenna_height_agl := 0, tx_power_w := 1, gain_dbi := 0,
        frequency_mhz := 3000, system_loss_db := 0, snr_threshold_db := 13,
        azimuth_sector := none, elevation_sector := none }
    let tile := compute_coverage_tile r (fun _ => 0)
      (fun _ => some (Angle.atanOf 1 1)) (fun _ => 1000) 1000000 0 0 0 1201
    tile.data.getD 0 0 = 2 ∧ ¬ marginVal (tile.snr_margin.getD 0 none) < 0 := by
  refine ⟨by decide, ?_⟩
  have hm : (compute_coverage_tile
      { name := "r", location := { latitude := 0, longitude := 0, altitude := 50 },
        antenna_height_agl := 0, tx_power_w := 1, gain_dbi := 0,
        frequency_mhz := 3000, system_loss_db := 0, snr_threshold_db := 13,
        azimuth_sector := none, elevation_sector := none }
      (fun _ => 0) (fun _ => some (Angle.atanOf 1 1)) (fun _ => 1000)
      1000000 0 0 0 1201).snr_margin.getD 0 none = none := by decide
  rw [hm]
  simp only [marginVal]
  exact lt_irrefl 0

/-- C3 (amended): on every coverage tile, the margin raster entry is ≥ 0
wherever the pixel is marked 1 (visible); wherever the pixel is marked 2
(shadowed), the entry is not written at all and retains the initial 0
(rather than a strictly negative value).  `hWF` states that the viewshed
oracle returns well-formed angle encodings, as every real viewshed does. -/
theorem c3_margin_nonneg_visible_zero_shadowed (radar : Radar)
    (alt : LatLon → ℚ) (horizon : LatLon → Option Angle) (geodist : LatLon → ℚ)
    (max_range target_agl : ℚ) (lat_idx lon_idx : ℤ) (step_size : ℕ)
    (x y : ℕ)
    (hx : x < (SRTM3_SIZE + step_size - 1) / step_size)
    (hy : y < (SRTM3_SIZE + step_size - 1) / step_size)
    (hWF : ∀ loc a, horizon loc = some a → a.WF) :
    ((compute_coverage_tile radar alt horizon geodist max_range lat_idx lon_idx
        target_agl step_size).data.getD
        (y * ((SRTM3_SIZE + step_size - 1) / step_size) + x) 0 = 1 →
      0 ≤ marginVal ((compute_coverage_tile radar alt horizon geodist max_range
        lat_idx lon_idx target_agl step_size).snr_margin.getD
        (y * ((SRTM3_SIZE + step_size - 1) / step_size) + x) none)) ∧
    ((compute_coverage_tile radar alt horizon geodist max_range lat_idx lon_idx
        target_agl step_size).data.getD
        (y * ((SRTM3_SIZE + step_size - 1) / step_size) + x) 0 = 2 →
      (compute_coverage_tile radar alt horizon geodist max_range lat_idx lon_idx
        target_agl step_size).snr_margin.getD
        (y * ((SRTM3_SIZE + step_size - 1) / step_size) + x) none = none) := by
  simp only [compute_coverage_tile]
  rw [getD_map_range _ _ _ _ (row_major_index_lt hx hy),
    getD_map_range _ _ _ _ (row_major_index_lt hx hy),
    (row_major_index_rec x y _ hx).1, (row_major_index_rec x y _ hx).2]
  simp only [coverage_pixel]
  split
  · exact ⟨fun h => absurd h (by simp), fun h => rfl⟩
  · split
    · rename_i horizon_angle hhor
      split
      · rename_i hle
        refine ⟨fun _ => ?_, fun h => absurd h (by simp)⟩
        exact marginVal_nonneg_of_angleLE
          (pixel_target_angle_WF radar alt geodist target_agl _)
          (hWF _ _ hhor) hle
      · exact ⟨fun h => absurd h (by simp), fun _ => rfl⟩
    · exact ⟨fun h => absurd h (by simp), fun h => absurd h (by simp)⟩

/-- C3 (witness): a concrete visible pixel with nonnegative margin. -/
theorem c3_witness :
    (compute_coverage_tile
      { name := "r", location := { latitude := 0, longitude := 0, altitude := 50 },
        antenna_height_agl := 0, tx_power_w := 1, gain_dbi := 0,
        frequency_mhz := 3000, system_loss_db := 0, snr_threshold_db := 13,
        azimuth_sector := none, elevation_sector := none }
      (fun _ => 0) (fun _ => some Angle.negPiHalf) (fun _ => 1000)
      1000000 0 0 0 1201).data.getD
      (0 * ((SRTM3_SIZE + 1201 - 1) / 1201) + 0) 0 = 1 ∧
    0 ≤ marginVal ((compute_coverage_tile
      { name := "r", location := { latitude := 0, longitude := 0, altitude := 50 },
        antenna_height_agl := 0, tx_power_w := 1, gain_dbi := 0,
        frequency_mhz := 3000, system_loss_db := 0, snr_threshold_db := 13,
        azimuth_sector := none, elevation_sector := none }
      (fun _ => 0) (fun _ => some Angle.negPiHalf) (fun _ => 1000)
      1000000 0 0 0 1201).snr_margin.getD
      (0 * ((SRTM3_SIZE + 1201 - 1) / 1201) + 0) none) :=
  ⟨by decide,
   (c3_margin_nonneg_visible_zero_shadowed _ _ _ _ 1000000 0 0 0 1201 0 0
      (by decide) (by decide)
      (fun loc a h => by
        injection h with h2
        rw [← h2]
        trivial)).1 (by decide)⟩

/-- C6 (counterexample): a radar that defines the elevation sector
`[80°, 89°)`, and a concrete visible pixel whose elevation angle from the
radar is negative — hence outside the half-open sector interval — yet the
pixel is classified 1 (visible), not 0: `compute_coverage_tile` performs no
sector filtering. -/
theorem c6_counterexample_sector_ignored :
    let r : Radar :=
      { name := "r", location := { latitude := 0, longitude := 0, altitude := 50 },
        antenna_height_agl := 0, tx_power_w := 1, gain_dbi := 0,
        frequency_mhz := 3000, system_loss_db := 0, snr_threshold_db := 13,
        azimuth_sector := none, elevation_sector := some (80, 89) }
    let tile := compute_coverage_tile r (fun _ => 0)
      (fun _ => some Angle.negPiHalf) (fun _ => 1000) 1000000 0 0 0 1201
    let t := pixel_target_angle r (fun _ => 0) (fun _ => 1000) 0
      (pixel_loc 0 0 1201 0 0)
    r.elevation_sector = some (80, 89) ∧
    tile.data.getD 0 0 = 1 ∧
    angleVal t * (180 / Real.pi) < 80 := by
  refine ⟨rfl, by decide, ?_⟩
  have ht : pixel_target_angle
      { name := "r", location := { latitude := 0, longitude := 0, altitude := 50 },
        antenna_height_agl := 0, tx_power_w := 1, gain_dbi := 0,
        frequency_mhz := 3000, system_loss_db := 0, snr_threshold_db := 13,
        azimuth_sector := none, elevation_sector := some (80, 89) }
      (fun _ => 0) (fun _ => 1000) 0 (pixel_loc 0 0 1201 0 0) =
      Angle.atanOf (-319281850 / 6378137) 1000000 := by decide
  rw [ht]
  have hneg : angleVal (Angle.atanOf (-319281850 / 6378137) 1000000) < 0 :=
    angleVal_atanOf_neg (by norm_num) (by norm_num)
  have hpi : (0 : ℝ) < 180 / Real.pi := div_pos (by norm_num) Real.pi_pos
  nlinarith

/-- C6 (amended): `compute_coverage_tile` applies no sector filtering at
all — its output is invariant under the `azimuth_sector` and
`elevation_sector` fields of the radar. -/
theorem c6_sector_fields_do_not_affect_output (radar : Radar)
    (alt : LatLon → ℚ) (horizon : LatLon → Option Angle) (geodist : LatLon → ℚ)
    (max_range target_agl : ℚ) (lat_idx lon_idx : ℤ) (step_size : ℕ)
    (az1 az2 el1 el2 : Option (ℚ × ℚ)) :
    compute_coverage_tile
      { radar with azimuth_sector := az1, elevation_sector := el1 }
      alt horizon geodist max_range lat_idx lon_idx target_agl step_size =
    compute_coverage_tile
      { radar with azimuth_sector := az2, elevation_sector := el2 }
      alt horizon geodist max_range lat_idx lon_idx target_agl step_size := rfl

/-- Row-major index injectivity. -/
theorem row_major_inj {x1 y1 x2 y2 n : ℕ} (h1 : x1 < n) (h2 : x2 < n)
    (he : y1 * n + x1 = y2 * n + x2) : x1 = x2 ∧ y1 = y2 := by
  have hx := row_major_index_rec x1 y1 n h1
  have hy := row_major_index_rec x2 y2 n h2
  exact ⟨by rw [← hx.1, ← hy.1, he], by rw [← hx.2, ← hy.2, he]⟩

/-- A zero squared distance in `processCell` pins the cell to the ray
center. -/
theorem dist_sq_eq_zero_iff (x y cx cy : ℤ) :
    ((x - cx : ℚ) * cell_size * ((x - cx : ℚ) * cell_size) +
      (y - cy : ℚ) * cell_size * ((y - cy : ℚ) * cell_size) = 0) ↔
      (x = cx ∧ y = cy) := by
  constructor
  · intro h0
    have ha := mul_self_nonneg ((x - cx : ℚ) * cell_size)
    have hb := mul_self_nonneg ((y - cy : ℚ) * cell_size)
    have hA : (x - cx : ℚ) * cell_size * ((x - cx : ℚ) * cell_size) = 0 := by linarith
    have hB : (y - cy : ℚ) * cell_size * ((y - cy : ℚ) * cell_size) = 0 := by linarith
    have hcs : (cell_size : ℚ) ≠ 0 := by rw [cell_size]; norm_num
    have hxq : ((x : ℚ) - (cx : ℚ)) = 0 := by
      rcases mul_self_eq_zero.mp hA |> mul_eq_zero.mp with h | h
      · exact h
      · exact absurd h hcs
    have hyq : ((y : ℚ) - (cy : ℚ)) = 0 := by
      rcases mul_self_eq_zero.mp hB |> mul_eq_zero.mp with h | h
      · exact h
      · exact absurd h hcs
    constructor
    · have : (x : ℚ) = (cx : ℚ) := by linarith
      exact_mod_cast this
    · have : (y : ℚ) = (cy : ℚ) := by linarith
      exact_mod_cast this
  · rintro ⟨rfl, rfl⟩
    ring

/-- The behaviors of one `cast_ray` loop body: either it writes nothing and
keeps the running maximum, or it writes the updated running maximum at a
non-center cell, or it writes `-FRAC_PI_2` at the center cell. -/
theorem processCell_cases (c : RayCtx) (x y : ℤ) (m : Angle) (map : List Angle) :
    ((processCell c x y m map).2.2 = none ∧ (processCell c x y m map).2.1 = m) ∨
    (∃ w, (processCell c x y m map).2.2 = some w ∧
      (processCell c x y m map).2.1 = w ∧ angleLE m w = true ∧
      ¬(x = c.cx ∧ y = c.cy)) ∨
    ((processCell c x y m map).2.2 = some Angle.negPiHalf ∧
      (processCell c x y m map).2.1 = m ∧ x = c.cx ∧ y = c.cy) := by
  rw [processCell]
  split
  · dsimp only
    split
    · rename_i hdist
      right; left
      refine ⟨_, rfl, rfl, ?_, ?_⟩
      · dsimp only
        split
        · rename_i hle
          exact angleLE_refl m
        · rename_i hle
          exact (angleLE_total _ m).resolve_left hle
      · intro hcen
        have h0 := (dist_sq_eq_zero_iff x y c.cx c.cy).mpr hcen
        have := hdist.1
        rw [h0] at this
        exact lt_irrefl 0 this
    · split
      · rename_i hzero
        right; right
        exact ⟨rfl, rfl, (dist_sq_eq_zero_iff x y c.cx c.cy).mp hzero⟩
      · left; exact ⟨rfl, rfl⟩
  · left; exact ⟨rfl, rfl⟩

/-- The map update of one `cast_ray` loop body keeps `-FRAC_PI_2` stored at
the center cell: a body write is either the `-FRAC_PI_2` write at the
center itself or a write at a different index. -/
theorem processCell_map_center (c : RayCtx) (hcx : c.cx = ((c.w / 2 : ℕ) : ℤ))
    (hcy : c.cy = ((c.h / 2 : ℕ) : ℤ)) (x y : ℤ) (m : Angle) (map : List Angle)
    (hc : map[(c.h / 2) * c.w + c.w / 2]? = some Angle.negPiHalf) :
    (processCell c x y m map).1[(c.h / 2) * c.w + c.w / 2]? =
      some Angle.negPiHalf := by
  have hclen : (c.h / 2) * c.w + c.w / 2 < map.length := by
    rcases List.getElem?_eq_some.mp hc with ⟨hlt, _⟩
    exact hlt
  rw [processCell]
  split
  · rename_i hb
    obtain ⟨hx0, hxw, hy0, hyh⟩ := hb
    obtain ⟨xn, rfl⟩ := Int.eq_ofNat_of_zero_le hx0
    obtain ⟨yn, rfl⟩ := Int.eq_ofNat_of_zero_le hy0
    have hxw' : xn < c.w := by exact_mod_cast hxw
    have hyh' : yn < c.h := by exact_mod_cast hyh
    have hwpos : 0 < c.w := by omega
    have hidx : ((yn : ℤ) * ((c.w : ℕ) : ℤ) + (xn : ℤ)).toNat = yn * c.w + xn := by
      have : ((yn : ℤ) * ((c.w : ℕ) : ℤ) + (xn : ℤ)) = ((yn * c.w + xn : ℕ) : ℤ) := by
        push_cast
        ring
      rw [this, Int.toNat_natCast]
    dsimp only
    split
    · rename_i hdist
      dsimp only
      rw [hidx]
      have hne : yn * c.w + xn ≠ (c.h / 2) * c.w + c.w / 2 := by
        intro heq
        have hhalf : c.w / 2 < c.w := Nat.div_lt_self hwpos (by omega)
        obtain ⟨hxe, hye⟩ := row_major_inj hxw' hhalf heq
        have hxeq : ((xn : ℕ) : ℤ) = c.cx := by rw [hcx, hxe]
        have hyeq : ((yn : ℕ) : ℤ) = c.cy := by rw [hcy, hye]
        have h0 := (dist_sq_eq_zero_iff (xn : ℤ) (yn : ℤ) c.cx c.cy).mpr ⟨hxeq, hyeq⟩
        have := hdist.1
        rw [h0] at this
        exact lt_irrefl 0 this
      rw [List.getElem?_set_ne hne]
      exact hc
    · split
      · rename_i hzero
        dsimp only
        obtain ⟨hxc, hyc⟩ := (dist_sq_eq_zero_iff (xn : ℤ) (yn : ℤ) c.cx c.cy).mp hzero
        have hxe : xn = c.w / 2 := by
          have : ((xn : ℕ) : ℤ) = ((c.w / 2 : ℕ) : ℤ) := by rw [hxc, hcx]
          exact_mod_cast this
        have hye : yn = c.h / 2 := by
          have : ((yn : ℕ) : ℤ) = ((c.h / 2 : ℕ) : ℤ) := by rw [hyc, hcy]
          exact_mod_cast this
        rw [hidx, hxe, hye]
        exact List.getElem?_set_eq_of_lt _ hclen
      · exact hc
  · exact hc

/-- `cast_ray` keeps `-FRAC_PI_2` stored at the center cell, from any loop
state. -/
theorem castRayAux_map_center (c : RayCtx) (hcx : c.cx = ((c.w / 2 : ℕ) : ℤ))
    (hcy : c.cy = ((c.h / 2 : ℕ) : ℤ)) (ex ey sx sy dx dy : ℤ) :
    ∀ (fuel : ℕ) (x y err : ℤ) (m : Angle) (map : List Angle),
      map[(c.h / 2) * c.w + c.w / 2]? = some Angle.negPiHalf →
      (castRayAux c ex ey sx sy dx dy fuel x y err m map).1[(c.h / 2) * c.w +
        c.w / 2]? = some Angle.negPiHalf := by
  intro fuel
  induction fuel with
  | zero => intro x y err m map hc; exact hc
  | succ fuel ih =>
    intro x y err m map hc
    rw [castRayAux]
    have hstep := processCell_map_center c hcx hcy x y m map hc
    dsimp only
    split
    · exact hstep
    · exact ih _ _ _ _ _ hstep

/-- C8: for every radar, terrain, positive max range and k-factor, the
viewshed returned by `compute_viewshed` stores `-FRAC_PI_2` in
`horizon_map` at the center cell, index
`(height/2) * width + width/2` — the radar sees itself.  (A positive max
range is what gives the grid its cells at all: `width = ceil(2r/cell)`.) -/
theorem c8_center_stores_neg_pi_half (radar : Radar) (alt : ℤ → ℤ → ℚ)
    (max_range_m k_factor : ℚ) (hmr : 0 < max_range_m) :
    (compute_viewshed radar alt max_range_m k_factor).horizon_map[
      ((compute_viewshed radar alt max_range_m k_factor).height / 2) *
        (compute_viewshed radar alt max_range_m k_factor).width +
      (compute_viewshed radar alt max_range_m k_factor).width / 2]? =
      some Angle.negPiHalf := by
  have hsize : 1 ≤ (Int.ceil (max_range_m * 2 / cell_size)).toNat := by
    have h1 : (0 : ℚ) < max_range_m * 2 / cell_size := by
      rw [cell_size]
      positivity
    have h2 := Int.ceil_pos.mpr h1
    omega
  set n := (Int.ceil (max_range_m * 2 / cell_size)).toNat with hn
  have hP : ∀ map : List Angle,
      map[(n / 2) * n + n / 2]? = some Angle.negPiHalf →
      ∀ (ex ey : ℤ),
        (castRay (viewshedCtx radar alt max_range_m k_factor
          (Viewshed.new radar.location max_range_m cell_size)) ex ey map).1[
          (n / 2) * n + n / 2]? = some Angle.negPiHalf := by
    intro map hmapc ex ey
    exact castRayAux_map_center _ rfl rfl _ _ _ _ _ _ _ _ _ _ _ _ hmapc
  have hfold : ∀ (P : List Angle → Prop) (f : List Angle → ℕ → List Angle),
      (∀ b a, P b → P (f b a)) → ∀ (l : List ℕ) (b : List Angle), P b → P (l.foldl f b) := by
    intro P f hf l
    induction l with
    | nil => intro b hb; exact hb
    | cons hd tl ihl =>
      intro b hb
      exact ihl _ (hf _ _ hb)
  have hinit : (List.replicate (n * n) Angle.negPiHalf)[(n / 2) * n + n / 2]? =
      some Angle.negPiHalf := by
    have hlt : (n / 2) * n + n / 2 < n * n :=
      row_major_index_lt (Nat.div_lt_self (by omega) (by omega))
        (Nat.div_lt_self (by omega) (by omega))
    rw [List.getElem?_replicate]
    simp [List.length_replicate, hlt]
  show (compute_viewshed radar alt max_range_m k_factor).horizon_map[
      (n / 2) * n + n / 2]? = some Angle.negPiHalf
  rw [compute_viewshed]
  dsimp only [Viewshed.new]
  apply hfold (fun mp => mp[(n / 2) * n + n / 2]? = some Angle.negPiHalf)
  · intro b a hb
    exact hP _ (hP _ hb _ _) _ _
  · apply hfold (fun mp => mp[(n / 2) * n + n / 2]? = some Angle.negPiHalf)
    · intro b a hb
      exact hP _ (hP _ hb _ _) _ _
    · exact hinit

/-- Everything is above `-FRAC_PI_2`. -/
theorem angleLE_bot (a : Angle) : angleLE Angle.negPiHalf a = true := by
  cases a <;> rfl

/-- Prepending an element below the head keeps a chain. -/
theorem angleChain_cons (w : Angle) (l : List Angle)
    (hl : angleChain l = true)
    (hh : ∀ a, l.head? = some a → angleLE w a = true) :
    angleChain (w :: l) = true := by
  cases l with
  | nil => rfl
  | cons b t =>
    simp only [angleChain, Bool.and_eq_true]
    exact ⟨hh b rfl, hl⟩

/-- The running-max discipline of a single `cast_ray` walk: from any loop
state, the values the walk writes form a non-decreasing sequence; moreover
every written value is above the incoming running maximum (or is the
`-FRAC_PI_2` center write, which can only occur while the walk is still at
the center). -/
theorem castRayAux_trace_spec (c : RayCtx) (ex ey sx sy dx dy : ℤ)
    (hsx : sx = 1 ∨ sx = -1) (hsy : sy = 1 ∨ sy = -1) :
    ∀ (fuel : ℕ) (x y err : ℤ) (m : Angle) (map : List Angle),
      0 ≤ sx * (x - c.cx) → 0 ≤ sy * (y - c.cy) →
      (angleChain (castRayAux c ex ey sx sy dx dy fuel x y err m map).2.1 = true ∧
       (∀ a, (castRayAux c ex ey sx sy dx dy fuel x y err m map).2.1.head? = some a →
          angleLE m a = true ∨ a = Angle.negPiHalf) ∧
       (1 ≤ sx * (x - c.cx) + sy * (y - c.cy) →
        ∀ a, (castRayAux c ex ey sx sy dx dy fuel x y err m map).2.1.head? = some a →
          angleLE m a = true)) := by
  have hsx2 : sx * sx = 1 := by rcases hsx with rfl | rfl <;> norm_num
  have hsy2 : sy * sy = 1 := by rcases hsy with rfl | rfl <;> norm_num
  intro fuel
  induction fuel with
  | zero =>
    intro x y err m map hx hy
    refine ⟨rfl, ?_, ?_⟩
    · intro a ha
      simp only [castRayAux, List.head?] at ha
      exact Option.noConfusion ha
    · intro _ a ha
      simp only [castRayAux, List.head?] at ha
      exact Option.noConfusion ha
  | succ fuel ih =>
    intro x y err m map hx hy
    rw [castRayAux]
    dsimp only
    by_cases hstop : x = ex ∧ y = ey
    · rw [if_pos hstop]
      rcases processCell_cases c x y m map with ⟨hw, hm⟩ | ⟨w, hw, hm, hle, hne⟩ |
        ⟨hw, hm, hxc, hyc⟩
      · rw [hw]
        refine ⟨rfl, ?_, ?_⟩
        · intro a ha
          simp only [Option.toList, List.nil_append, List.head?] at ha
          exact Option.noConfusion ha
        · intro _ a ha
          simp only [Option.toList, List.nil_append, List.head?] at ha
          exact Option.noConfusion ha
      · rw [hw]
        refine ⟨rfl, ?_, ?_⟩
        · intro a ha
          simp only [Option.toList, List.append_nil, List.head?_cons,
            Option.some.injEq] at ha
          exact Or.inl (ha ▸ hle)
        · intro _ a ha
          simp only [Option.toList, List.append_nil, List.head?_cons,
            Option.some.injEq] at ha
          exact ha ▸ hle
      · rw [hw]
        refine ⟨rfl, ?_, ?_⟩
        · intro a ha
          simp only [Option.toList, List.append_nil, List.head?_cons,
            Option.some.injEq] at ha
          exact Or.inr ha.symm
        · intro hsum a ha
          exfalso
          rw [hxc, hyc] at hsum
          simp only [sub_self, mul_zero, add_zero] at hsum
          omega
    · rw [if_neg hstop]
      have hXinv : 0 ≤ sx * ((if 2 * err > -dy then x + sx else x) - c.cx) := by
        split
        · have he : sx * (x + sx - c.cx) = sx * (x - c.cx) + sx * sx := by ring
          rw [he, hsx2]
          linarith
        · exact hx
      have hYinv : 0 ≤ sy * ((if 2 * err < dx then y + sy else y) - c.cy) := by
        split
        · have he : sy * (y + sy - c.cy) = sy * (y - c.cy) + sy * sy := by ring
          rw [he, hsy2]
          linarith
        · exact hy
      have hXmono : sx * (x - c.cx) ≤ sx * ((if 2 * err > -dy then x + sx else x) - c.cx) := by
        split
        · have he : sx * (x + sx - c.cx) = sx * (x - c.cx) + sx * sx := by ring
          rw [he, hsx2]
          linarith
        · exact le_refl _
      have hYmono : sy * (y - c.cy) ≤ sy * ((if 2 * err < dx then y + sy else y) - c.cy) := by
        split
        · have he : sy * (y + sy - c.cy) = sy * (y - c.cy) + sy * sy := by ring
          rw [he, hsy2]
          linarith
        · exact le_refl _
      rcases processCell_cases c x y m map with ⟨hw, hm⟩ | ⟨w, hw, hm, hle, hne⟩ |
        ⟨hw, hm, hxc, hyc⟩
      · rw [hw, hm]
        obtain ⟨ch', hweak', hstrong'⟩ := ih _ _ _ m (processCell c x y m map).1 hXinv hYinv
        refine ⟨?_, ?_, ?_⟩
        · simpa only [Option.toList, List.nil_append] using ch'
        · intro a ha
          simp only [Option.toList, List.nil_append] at ha
          exact hweak' a ha
        · intro hsum a ha
          simp only [Option.toList, List.nil_append] at ha
          exact hstrong' (by linarith) a ha
      · rw [hw, hm]
        have hsum1 : 1 ≤ sx * (x - c.cx) + sy * (y - c.cy) := by
          rcases not_and_or.mp hne with hxne | hyne
          · have hx1 : sx * (x - c.cx) ≠ 0 := by
              intro h0
              apply hxne
              have h1 : sx * (sx * (x - c.cx)) = 0 := by rw [h0, mul_zero]
              have h2 : sx * sx * (x - c.cx) = 0 := by rw [mul_assoc]; exact h1
              rw [hsx2, one_mul, sub_eq_zero] at h2
              exact h2
            omega
          · have hy1 : sy * (y - c.cy) ≠ 0 := by
              intro h0
              apply hyne
              have h1 : sy * (sy * (y - c.cy)) = 0 := by rw [h0, mul_zero]
              have h2 : sy * sy * (y - c.cy) = 0 := by rw [mul_assoc]; exact h1
              rw [hsy2, one_mul, sub_eq_zero] at h2
              exact h2
            omega
        obtain ⟨ch', hweak', hstrong'⟩ := ih _ _ _ w (processCell c x y m map).1 hXinv hYinv
        have hheads : ∀ a,
            ((castRayAux c ex ey sx sy dx dy fuel (if 2 * err > -dy then x + sx else x)
              (if 2 * err < dx then y + sy else y)
              (if 2 * err < dx then (if 2 * err > -dy then err - dy else err) + dx
                else if 2 * err > -dy then err - dy else err) w
              (processCell c x y m map).1).2.1).head? = some a →
            angleLE w a = true := by
          intro a ha
          exact hstrong' (by linarith) a ha
        refine ⟨?_, ?_, ?_⟩
        · simp only [Option.toList]
          exact angleChain_cons w _ ch' hheads
        · intro a ha
          simp only [Option.toList, List.cons_append, List.head?_cons,
            Option.some.injEq] at ha
          exact Or.inl (ha ▸ hle)
        · intro _ a ha
          simp only [Option.toList, List.cons_append, List.head?_cons,
            Option.some.injEq] at ha
          exact ha ▸ hle
      · rw [hw, hm]
        obtain ⟨ch', hweak', hstrong'⟩ := ih _ _ _ m (processCell c x y m map).1 hXinv hYinv
        refine ⟨?_, ?_, ?_⟩
        · simp only [Option.toList]
          exact angleChain_cons Angle.negPiHalf _ ch' (fun a _ => angleLE_bot a)
        · intro a ha
          simp only [Option.toList, List.cons_append, List.head?_cons,
            Option.some.injEq] at ha
          exact Or.inr ha.symm
        · intro hsum a ha
          exfalso
          rw [hxc, hyc] at hsum
          simp only [sub_self, mul_zero, add_zero] at hsum
          omega

/-- C8 (witness): a concrete 2×2 viewshed over flat terrain. -/
theorem c8_witness :
    (0 : ℚ) < 100 ∧
    (compute_viewshed
      { name := "r", location := { latitude := 0, longitude := 0, altitude := 0 },
        antenna_height_agl := 0, tx_power_w := 1, gain_dbi := 0,
        frequency_mhz := 3000, system_loss_db := 0, snr_threshold_db := 13,
        azimuth_sector := none, elevation_sector := none }
      (fun _ _ => 0) 100 (4 / 3)).horizon_map[
      ((compute_viewshed
        { name := "r", location := { latitude := 0, longitude := 0, altitude := 0 },
          antenna_height_agl := 0, tx_power_w := 1, gain_dbi := 0,
          frequency_mhz := 3000, system_loss_db := 0, snr_threshold_db := 13,
          azimuth_sector := none, elevation_sector := none }
        (fun _ _ => 0) 100 (4 / 3)).height / 2) *
        (compute_viewshed
          { name := "r", location := { latitude := 0, longitude := 0, altitude := 0 },
            antenna_height_agl := 0, tx_power_w := 1, gain_dbi := 0,
            frequency_mhz := 3000, system_loss_db := 0, snr_threshold_db := 13,
            azimuth_sector := none, elevation_sector := none }
          (fun _ _ => 0) 100 (4 / 3)).width +
        (compute_viewshed
          { name := "r", location := { latitude := 0, longitude := 0, altitude := 0 },
            antenna_height_agl := 0, tx_power_w := 1, gain_dbi := 0,
            frequency_mhz := 3000, system_loss_db := 0, snr_threshold_db := 13,
            azimuth_sector := none, elevation_sector := none }
          (fun _ _ => 0) 100 (4 / 3)).width / 2]? = some Angle.negPiHalf :=
  ⟨by norm_num,
   c8_center_stores_neg_pi_half
     { name := "r", location := { latitude := 0, longitude := 0, altitude := 0 },
       antenna_height_agl := 0, tx_power_w := 1, gain_dbi := 0,
       frequency_mhz := 3000, system_loss_db := 0, snr_threshold_db := 13,
       azimuth_sector := none, elevation_sector := none }
     (fun _ _ => 0) 100 (4 / 3) (by norm_num)⟩

/-- C2 (counterexample): the claim fails on the code.  A 5×5 viewshed over
flat zero terrain (radar altitude 0, max range 220 m, k = 4/3): the
Bresenham ray from the center cell (2,2) to the perimeter (corner) cell
(0,0) visits (2,2), (1,1), (0,0); the final `horizon_map` values along it
are `[-π/2, atan(-drop/d), -π/2]` — the corner cell lies beyond the max
range, is never written, and keeps the initial `-π/2`, which is strictly
below the value stored at the nearer cell (1,1).  The sequence is not
monotone non-decreasing. -/
theorem c2_counterexample_monotonicity_fails :
    (compute_viewshed
      { name := "r", location := { latitude := 0, longitude := 0, altitude := 0 },
        antenna_height_agl := 0, tx_power_w := 1, gain_dbi := 0,
        frequency_mhz := 3000, system_loss_db := 0, snr_threshold_db := 13,
        azimuth_sector := none, elevation_sector := none }
      (fun _ _ => 0) 220 (4 / 3)).width = 5 ∧
    viewshed_ray_cells
      { name := "r", location := { latitude := 0, longitude := 0, altitude := 0 },
        antenna_height_agl := 0, tx_power_w := 1, gain_dbi := 0,
        frequency_mhz := 3000, system_loss_db := 0, snr_threshold_db := 13,
        azimuth_sector := none, elevation_sector := none }
      (fun _ _ => 0) 220 (4 / 3) 0 0 = [(2, 2), (1, 1), (0, 0)] ∧
    angleChain (viewshed_ray_final_values
      { name := "r", location := { latitude := 0, longitude := 0, altitude := 0 },
        antenna_height_agl := 0, tx_power_w := 1, gain_dbi := 0,
        frequency_mhz := 3000, system_loss_db := 0, snr_threshold_db := 13,
        azimuth_sector := none, elevation_sector := none }
      (fun _ _ => 0) 220 (4 / 3) 0 0) = false := by
  refine ⟨by decide, by decide, by decide⟩

/-- C2 (amended): the running-max discipline holds per ray cast: for every
radar, terrain, max range, k-factor and ray target, the sequence of values
a single `cast_ray` invocation writes into `horizon_map`, in traversal
order from the center outward, is monotone non-decreasing.  (The final map
can still decrease along a ray where cells beyond the max range keep the
initial `-π/2`, and where a later ray overwrote a shared cell.) -/
theorem c2_ray_write_trace_monotone (radar : Radar) (alt : ℤ → ℤ → ℚ)
    (max_range_m k_factor : ℚ) (ex ey : ℤ) :
    angleChain (viewshed_ray_write_trace radar alt max_range_m k_factor ex ey)
      = true := by
  rw [viewshed_ray_write_trace, castRay]
  refine (castRayAux_trace_spec _ ex ey _ _ _ _ ?_ ?_ _ _ _ _ _ _ ?_ ?_).1
  · split
    · exact Or.inl rfl
    · exact Or.inr rfl
  · split
    · exact Or.inl rfl
    · exact Or.inr rfl
  · simp
  · simp

end RadarCov
